import Mathlib

/-! Shallow embedding of the cursor-based pagination and network-request
filtering core of the chrome-devtools-mcp repository, together with proofs
about its specified behaviour.

Modelling conventions: JavaScript numbers are modelled as `Int` (every value
flowing through this code is an integer: array lengths, `parseInt` results,
page sizes), JS arrays as `List`, strings as `String`, and `undefined`/`null`
as `Option.none`.  The repository contains three pagination implementations:
`paginate` in the first document of src/utils/pagination.ts (namespace
`Pagination`), `paginateNetworkRequests` with filtering in the second
document of src/utils/pagination.ts (namespace `NetworkListing`), and the
standalone `paginateNetworkRequests` module (namespace `NetPagination`).
The tool-facing allow-list from src/tools/network.ts lives in namespace
`NetworkTool`. -/

/-- Characters that `Number.parseInt` skips as leading whitespace
(the JS StrWhiteSpace characters that matter for ASCII input). -/
def isJsWhitespace (c : Char) : Bool :=
  c == ' ' || c == '\t' || c == '\n' || c == '\r' ||
    c == Char.ofNat 11 || c == Char.ofNat 12

/-- Numeric value of a decimal digit character. -/
def digitVal (c : Char) : Nat := c.toNat - 48

/-- Value of a big-endian list of decimal digit characters. -/
def digitsToNat (ds : List Char) : Nat :=
  ds.foldl (fun a c => 10 * a + digitVal c) 0

/-- The longest run of decimal digits at the front of a character list. -/
def leadingDigits (cs : List Char) : List Char := cs.takeWhile Char.isDigit

/-- An optional leading sign followed by the longest run of decimal
digits; `none` when no digit is found. -/
def parseSigned : List Char → Option Int
  | [] => none
  | c :: rest =>
    if c = '-' then
      let ds := leadingDigits rest
      if ds.isEmpty then none else some (-(digitsToNat ds : Int))
    else if c = '+' then
      let ds := leadingDigits rest
      if ds.isEmpty then none else some ((digitsToNat ds : Int))
    else
      let ds := leadingDigits (c :: rest)
      if ds.isEmpty then none else some ((digitsToNat ds : Int))

/-- `Number.parseInt(s, 10)`: skip leading whitespace, read an optional
sign, then the longest run of decimal digits (trailing characters are
ignored); `none` models the `NaN` result when no digit is found. -/
def parseIntBase10 (s : String) : Option Int :=
  parseSigned (s.data.dropWhile isJsWhitespace)

/-- The character for a decimal digit value. -/
def decDigitChar (d : Nat) : Char := Char.ofNat (48 + d)

/-- Decimal digit characters of `n`, least significant first, with explicit
fuel so that the definition reduces inside the kernel. -/
def natDecRevAux : Nat → Nat → List Char
  | 0, _ => []
  | fuel + 1, n =>
    if n < 10 then [decDigitChar n]
    else decDigitChar (n % 10) :: natDecRevAux fuel (n / 10)

/-- Decimal digit characters of `n`, least significant first. -/
def natDecRev (n : Nat) : List Char := natDecRevAux (n + 1) n

/-- JavaScript `String(n)` for a non-negative integer: plain decimal. -/
def natDecimal (n : Nat) : String := String.mk (natDecRev n).reverse

/-- JavaScript `String(i)` for an integer. -/
def intDecimal (i : Int) : String :=
  if i < 0 then String.mk ('-' :: (natDecRev i.natAbs).reverse)
  else natDecimal i.natAbs

/-- How `Array.prototype.slice` resolves one integer index against a
length: a negative index counts from the end, and the result is clamped to
`[0, length]`. -/
def jsClipIndex (len : Nat) (i : Int) : Nat :=
  (if i < 0 then max ((len : Int) + i) 0 else min i len).toNat

/-- `Array.prototype.slice(start, stop)` on a list, for integer arguments:
the elements in `[start, stop)` after both indices are resolved by
`jsClipIndex`. -/
def jsSlice (l : List α) (start stop : Int) : List α :=
  (l.take (jsClipIndex l.length stop)).drop (jsClipIndex l.length start)

/-- The `{startIndex, invalidToken}` record returned by every
`resolveStartIndex` variant. -/
structure StartResolution where
  startIndex : Int
  invalidToken : Bool
deriving Repr, DecidableEq

/-- A captured network request, modelled by the only data this core ever
reads: its URL and the categorical resource type returned by
`request.resourceType()`. -/
structure HTTPRequest where
  url : String
  resourceType : String
deriving Repr, DecidableEq

/-- A `FilterableResourceType | FilterableResourceType[]` value: either a
single category string or an array of category strings. -/
inductive ReqTypeSpec where
  | single (value : String)
  | multiple (values : List String)
deriving Repr, DecidableEq

/-- The list of requested values carried by a `requestType` value, as
built by `Array.isArray(requestType) ? requestType : [requestType]`. -/
def reqTypeValues : ReqTypeSpec → List String
  | .single v => [v]
  | .multiple vs => vs

namespace Pagination

/-- `PaginationOptions` from the generic paginate module. -/
structure PaginationOptions where
  pageSize : Option Int
  pageToken : Option String
deriving Repr, DecidableEq

/-- `PaginationResult<TItem>` from the generic paginate module. -/
structure PaginationResult (TItem : Type) where
  items : List TItem
  nextPageToken : Option String
  previousPageToken : Option String
  startIndex : Int
  endIndex : Int
  invalidToken : Bool
deriving Repr, DecidableEq

def DEFAULT_PAGE_SIZE : Int := 20

/-- The `{}` options value with both fields absent. -/
def emptyOptions : PaginationOptions := ⟨none, none⟩

/-- `noPaginationOptions`: both `pageSize` and `pageToken` are
`undefined`/`null`. -/
def noPaginationOptions (options : PaginationOptions) : Bool :=
  options.pageSize.isNone && options.pageToken.isNone

/-- `resolveStartIndex` of the generic paginate module: a missing token
resolves to offset 0; a token that fails to parse, parses negative, or
parses `≥ total` resolves to offset 0 with `invalidToken = true`
unconditionally. -/
def resolveStartIndex (pageToken : Option String) (total : Int) :
    StartResolution :=
  match pageToken with
  | none => { startIndex := 0, invalidToken := false }
  | some tok =>
    match parseIntBase10 tok with
    | none => { startIndex := 0, invalidToken := true }
    | some parsed =>
      if parsed < 0 || parsed ≥ total then
        { startIndex := 0, invalidToken := true }
      else
        { startIndex := parsed, invalidToken := false }

/-- `paginate` from the generic module.  Note that on the paginated path
the page size is `options.pageSize ?? DEFAULT_PAGE_SIZE` with no further
validation. -/
def paginate (items : List TItem) (options : Option PaginationOptions) :
    PaginationResult TItem :=
  let total : Int := items.length
  if options.isNone || noPaginationOptions (options.getD emptyOptions) then
    { items := items, nextPageToken := none, previousPageToken := none,
      startIndex := 0, endIndex := total, invalidToken := false }
  else
    let opts := options.getD emptyOptions
    let pageSize := opts.pageSize.getD DEFAULT_PAGE_SIZE
    let r := resolveStartIndex opts.pageToken total
    let pageItems := jsSlice items r.startIndex (r.startIndex + pageSize)
    let endIndex : Int := r.startIndex + pageItems.length
    let nextPageToken :=
      if endIndex < total then some (intDecimal endIndex) else none
    let previousPageToken :=
      if r.startIndex > 0 then some (intDecimal (max (r.startIndex - pageSize) 0))
      else none
    { items := pageItems, nextPageToken := nextPageToken,
      previousPageToken := previousPageToken, startIndex := r.startIndex,
      endIndex := endIndex, invalidToken := r.invalidToken }

end Pagination

/-- One forward chain of paginated calls against a fixed collection:
starting from token `tok`, call `paginate` with the fixed page size `p`,
collect the page, and follow `nextPageToken` while present (bounded by a
fuel that counts calls).  The Bool records whether the chain reached a
call with no next token within the allotted calls. -/
def chainPages (items : List TItem) (p : Int) :
    Nat → Option String → List TItem × Bool
  | 0, _ => ([], false)
  | fuel + 1, tok =>
    let r := Pagination.paginate items (some ⟨some p, tok⟩)
    match r.nextPageToken with
    | none => (r.items, true)
    | some t =>
      let rest := chainPages items p fuel (some t)
      (r.items ++ rest.1, rest.2)

namespace NetworkListing

/-- The allow-list of filterable resource types from the network-listing
document of src/utils/pagination.ts (12 entries). -/
def FILTERABLE_RESOURCE_TYPES : List String :=
  ["document", "stylesheet", "image", "media", "font", "script",
   "xhr", "fetch", "prefetch", "websocket", "preflight", "other"]

/-- `isFilterableResourceType`: membership in the allow-list (the source
consults a `Set` built from the same list, which has the same membership). -/
def isFilterableResourceType (value : String) : Bool :=
  FILTERABLE_RESOURCE_TYPES.contains value

/-- `sanitizeRequestTypeFilter`: drop requested values outside the
allow-list; return `undefined` when nothing survives, a single value for a
single input, and the surviving array for an array input. -/
def sanitizeRequestTypeFilter (requestType : Option ReqTypeSpec) :
    Option ReqTypeSpec :=
  match requestType with
  | none => none
  | some spec =>
    let values := match spec with
      | .single v => [v]
      | .multiple vs => vs
    let sanitized := values.filter isFilterableResourceType
    if sanitized.isEmpty then none
    else
      match spec with
      | .single _ => some (.single (sanitized.headD ""))
      | .multiple _ => some (.multiple sanitized)

/-- JS truthiness of a `requestType` value, as tested by
`if (!requestType)`: `undefined`/`null` and the empty string are falsy;
every array (even an empty one) is truthy. -/
def reqTypeTruthy : Option ReqTypeSpec → Bool
  | none => false
  | some (.single v) => v ≠ ""
  | some (.multiple _) => true

/-- `filterNetworkRequests`: keep the requests whose resource type is both
a recognized filterable type and a member of the requested set. -/
def filterNetworkRequests (requests : List HTTPRequest)
    (requestType : Option ReqTypeSpec) : List HTTPRequest :=
  if !reqTypeTruthy requestType then requests
  else
    let normalizedTypes := match requestType with
      | some (.single v) => [v]
      | some (.multiple vs) => vs
      | none => []
    if normalizedTypes.isEmpty then requests
    else
      requests.filter fun request =>
        isFilterableResourceType request.resourceType &&
          normalizedTypes.contains request.resourceType

/-- `NetworkRequestsListingOptions`. -/
structure NetworkRequestsListingOptions where
  pageSize : Option Int
  pageToken : Option String
  requestType : Option ReqTypeSpec
deriving Repr, DecidableEq

/-- `NetworkRequestsListingResult`. -/
structure NetworkRequestsListingResult where
  requests : List HTTPRequest
  nextPageToken : Option String
  previousPageToken : Option String
  startIndex : Int
  endIndex : Int
  invalidToken : Bool
  total : Int
  appliedRequestType : Option ReqTypeSpec
deriving Repr, DecidableEq

def DEFAULT_PAGE_SIZE : Int := 20

/-- The `{}` fallback used for `options ?? {}`. -/
def emptyOptions : NetworkRequestsListingOptions := ⟨none, none, none⟩

/-- `hasPagination`: a page size is given, or a non-null token is given. -/
def hasPagination (options : NetworkRequestsListingOptions) : Bool :=
  options.pageSize.isSome || options.pageToken.isSome

/-- `validatePageSize`.  `total || DEFAULT_PAGE_SIZE` is `total` unless the
length is 0; on the `Int` model `Number.isInteger(pageSize)` is identically
true, so the invalid-size test reduces to `pageSize <= 0`. -/
def validatePageSize (pageSize : Option Int) (total : Int) : Int :=
  match pageSize with
  | none => if total == 0 then DEFAULT_PAGE_SIZE else total
  | some ps => if ps ≤ 0 then DEFAULT_PAGE_SIZE else min ps (max total 1)

/-- `resolveStartIndex` of the network-listing document: on a failed
parse or an out-of-range value, `invalidToken` is `total > 0` — an invalid
token against an empty collection is NOT flagged. -/
def resolveStartIndex (pageToken : Option String) (total : Int) :
    StartResolution :=
  match pageToken with
  | none => { startIndex := 0, invalidToken := false }
  | some tok =>
    match parseIntBase10 tok with
    | none => { startIndex := 0, invalidToken := decide (total > 0) }
    | some parsed =>
      if parsed < 0 || parsed ≥ total then
        { startIndex := 0, invalidToken := decide (total > 0) }
      else
        { startIndex := parsed, invalidToken := false }

/-- `paginateNetworkRequests`: filter first, then paginate the filtered
list; `appliedRequestType` echoes `options.requestType` as passed in. -/
def paginateNetworkRequests (requests : List HTTPRequest)
    (options : Option NetworkRequestsListingOptions) :
    NetworkRequestsListingResult :=
  let sanitizedOptions := options.getD emptyOptions
  let filteredRequests :=
    filterNetworkRequests requests sanitizedOptions.requestType
  let total : Int := filteredRequests.length
  if !hasPagination sanitizedOptions then
    { requests := filteredRequests, nextPageToken := none,
      previousPageToken := none, startIndex := 0, endIndex := total,
      invalidToken := false, total := total,
      appliedRequestType := sanitizedOptions.requestType }
  else
    let pageSize := validatePageSize sanitizedOptions.pageSize total
    let r := resolveStartIndex sanitizedOptions.pageToken total
    let pageRequests :=
      jsSlice filteredRequests r.startIndex (r.startIndex + pageSize)
    let endIndex : Int := r.startIndex + pageRequests.length
    let nextPageToken :=
      if endIndex < total then some (intDecimal endIndex) else none
    let previousPageToken :=
      if r.startIndex > 0 then some (intDecimal (max (r.startIndex - pageSize) 0))
      else none
    { requests := pageRequests, nextPageToken := nextPageToken,
      previousPageToken := previousPageToken, startIndex := r.startIndex,
      endIndex := endIndex, invalidToken := r.invalidToken, total := total,
      appliedRequestType := sanitizedOptions.requestType }

end NetworkListing

/-- One forward chain of paginated listing calls with no filter: starting
from token `tok`, call `paginateNetworkRequests` with the fixed page size
`p` and no `requestType`, collect the page, and follow `nextPageToken`
while present (bounded by a fuel that counts calls). -/
def chainListingPages (requests : List HTTPRequest) (p : Int) :
    Nat → Option String → List HTTPRequest × Bool
  | 0, _ => ([], false)
  | fuel + 1, tok =>
    let r := NetworkListing.paginateNetworkRequests requests
      (some ⟨some p, tok, none⟩)
    match r.nextPageToken with
    | none => (r.requests, true)
    | some t =>
      let rest := chainListingPages requests p fuel (some t)
      (r.requests ++ rest.1, rest.2)

namespace NetPagination

/-- `NetworkPaginationOptions` of the standalone module. -/
structure NetworkPaginationOptions where
  pageSize : Option Int
  pageToken : Option String
deriving Repr, DecidableEq

/-- `NetworkPaginationResult` of the standalone module. -/
structure NetworkPaginationResult where
  requests : List HTTPRequest
  nextPageToken : Option String
  previousPageToken : Option String
  startIndex : Int
  endIndex : Int
  invalidToken : Bool
deriving Repr, DecidableEq

def DEFAULT_PAGE_SIZE : Int := 20

/-- The `{}` options value with both fields absent. -/
def emptyOptions : NetworkPaginationOptions := ⟨none, none⟩

/-- `noPaginationOptions` of the standalone module. -/
def noPaginationOptions (options : NetworkPaginationOptions) : Bool :=
  options.pageSize.isNone && options.pageToken.isNone

/-- `validatePageSize` of the standalone module (identical to the
network-listing one). -/
def validatePageSize (pageSize : Option Int) (total : Int) : Int :=
  match pageSize with
  | none => if total == 0 then DEFAULT_PAGE_SIZE else total
  | some ps => if ps ≤ 0 then DEFAULT_PAGE_SIZE else min ps (max total 1)

/-- `resolveStartIndex` of the standalone module: `invalidToken` is set
unconditionally on a failed parse or an out-of-range value. -/
def resolveStartIndex (pageToken : Option String) (total : Int) :
    StartResolution :=
  match pageToken with
  | none => { startIndex := 0, invalidToken := false }
  | some tok =>
    match parseIntBase10 tok with
    | none => { startIndex := 0, invalidToken := true }
    | some parsed =>
      if parsed < 0 || parsed ≥ total then
        { startIndex := 0, invalidToken := true }
      else
        { startIndex := parsed, invalidToken := false }

/-- `paginateNetworkRequests` of the standalone module: no filtering, with
page-size validation. -/
def paginateNetworkRequests (requests : List HTTPRequest)
    (options : Option NetworkPaginationOptions) : NetworkPaginationResult :=
  let total : Int := requests.length
  if options.isNone || noPaginationOptions (options.getD emptyOptions) then
    { requests := requests, nextPageToken := none, previousPageToken := none,
      startIndex := 0, endIndex := total, invalidToken := false }
  else
    let opts := options.getD emptyOptions
    let pageSize := validatePageSize opts.pageSize total
    let r := resolveStartIndex opts.pageToken total
    let pageRequests := jsSlice requests r.startIndex (r.startIndex + pageSize)
    let endIndex : Int := r.startIndex + pageRequests.length
    let nextPageToken :=
      if endIndex < total then some (intDecimal endIndex) else none
    let previousPageToken :=
      if r.startIndex > 0 then some (intDecimal (max (r.startIndex - pageSize) 0))
      else none
    { requests := pageRequests, nextPageToken := nextPageToken,
      previousPageToken := previousPageToken, startIndex := r.startIndex,
      endIndex := endIndex, invalidToken := r.invalidToken }

end NetPagination

namespace NetworkTool

/-- The allow-list declared locally in src/tools/network.ts and fed to the
tool-facing zod schema (19 entries). -/
def FILTERABLE_RESOURCE_TYPES : List String :=
  ["document", "stylesheet", "image", "media", "font", "script",
   "texttrack", "xhr", "fetch", "prefetch", "eventsource", "websocket",
   "manifest", "signedexchange", "ping", "cspviolationreport", "preflight",
   "fedcm", "other"]

end NetworkTool

/-! ### Helper lemmas about the JavaScript number/string model -/

theorem natDecRevAux_fuel (n : Nat) :
    ∀ f1 f2, n < f1 → n < f2 → natDecRevAux f1 n = natDecRevAux f2 n := by
  induction n using Nat.strong_induction_on with
  | _ n ih =>
    intro f1 f2 h1 h2
    cases f1 with
    | zero => omega
    | succ g1 =>
      cases f2 with
      | zero => omega
      | succ g2 =>
        simp only [natDecRevAux]
        by_cases h : n < 10
        · simp [h]
        · simp only [if_neg h]
          have hd : n / 10 < n := Nat.div_lt_self (by omega) (by omega)
          rw [ih (n / 10) hd g1 g2 (by omega) (by omega)]

theorem natDecRev_eq (n : Nat) :
    natDecRev n = if n < 10 then [decDigitChar n]
      else decDigitChar (n % 10) :: natDecRev (n / 10) := by
  show natDecRevAux (n + 1) n = _
  by_cases h : n < 10
  · simp only [natDecRevAux, if_pos h]
  · have hd : n / 10 < n := Nat.div_lt_self (by omega) (by omega)
    have h1 : natDecRevAux (n + 1) n
        = decDigitChar (n % 10) :: natDecRevAux n (n / 10) := by
      simp only [natDecRevAux, if_neg h]
    rw [h1, if_neg h, natDecRev]
    exact congrArg _ (natDecRevAux_fuel (n / 10) n (n / 10 + 1) (by omega) (by omega))

theorem natDecRev_mem (n : Nat) :
    ∀ c ∈ natDecRev n, ∃ d, d < 10 ∧ c = decDigitChar d := by
  induction n using Nat.strong_induction_on with
  | _ n ih =>
    intro c hc
    rw [natDecRev_eq] at hc
    by_cases h : n < 10
    · rw [if_pos h] at hc
      simp only [List.mem_singleton] at hc
      exact ⟨n, h, hc⟩
    · rw [if_neg h] at hc
      rcases List.mem_cons.mp hc with h1 | h1
      · exact ⟨n % 10, Nat.mod_lt _ (by omega), h1⟩
      · exact ih (n / 10) (Nat.div_lt_self (by omega) (by omega)) c h1

theorem natDecRev_ne_nil (n : Nat) : natDecRev n ≠ [] := by
  rw [natDecRev_eq]
  by_cases h : n < 10 <;> simp [h]

theorem decDigitChar_isDigit {d : Nat} (h : d < 10) :
    (decDigitChar d).isDigit = true := by
  interval_cases d <;> decide

theorem decDigitChar_not_ws {d : Nat} (h : d < 10) :
    isJsWhitespace (decDigitChar d) = false := by
  interval_cases d <;> decide

theorem decDigitChar_ne_dash {d : Nat} (h : d < 10) : decDigitChar d ≠ '-' := by
  interval_cases d <;> decide

theorem decDigitChar_ne_plus {d : Nat} (h : d < 10) : decDigitChar d ≠ '+' := by
  interval_cases d <;> decide

theorem digitVal_decDigitChar {d : Nat} (h : d < 10) :
    digitVal (decDigitChar d) = d := by
  interval_cases d <;> decide

theorem digitsToNat_append_digit (ds : List Char) (c : Char) :
    digitsToNat (ds ++ [c]) = 10 * digitsToNat ds + digitVal c := by
  simp [digitsToNat, List.foldl_append]

theorem digitsToNat_natDecRev (n : Nat) :
    digitsToNat (natDecRev n).reverse = n := by
  induction n using Nat.strong_induction_on with
  | _ n ih =>
    rw [natDecRev_eq]
    by_cases h : n < 10
    · rw [if_pos h]
      simp [digitsToNat, digitVal_decDigitChar h]
    · rw [if_neg h]
      rw [List.reverse_cons, digitsToNat_append_digit,
        ih (n / 10) (Nat.div_lt_self (by omega) (by omega)),
        digitVal_decDigitChar (Nat.mod_lt _ (by omega))]
      omega

theorem takeWhile_of_all {p : α → Bool} :
    ∀ l : List α, (∀ c ∈ l, p c = true) → List.takeWhile p l = l := by
  intro l h
  induction l with
  | nil => rfl
  | cons a l ihl =>
    rw [List.takeWhile_cons_of_pos (h a (by simp))]
    rw [ihl fun c hc => h c (by simp [hc])]

/-- Parsing the decimal rendering of a natural number round-trips. -/
theorem parseIntBase10_natDecimal (n : Nat) :
    parseIntBase10 (natDecimal n) = some (n : Int) := by
  have hmem := natDecRev_mem n
  have hvalue := digitsToNat_natDecRev n
  have hne : (natDecRev n).reverse ≠ [] := by
    simpa using natDecRev_ne_nil n
  obtain ⟨c, rest, hrev⟩ := List.exists_cons_of_ne_nil hne
  have hmemrev : ∀ x ∈ (natDecRev n).reverse, ∃ d, d < 10 ∧ x = decDigitChar d := by
    intro x hx
    exact hmem x (List.mem_reverse.mp hx)
  obtain ⟨d, hd, hc⟩ := hmemrev c (by rw [hrev]; simp)
  have hdigits : ∀ x ∈ (natDecRev n).reverse, Char.isDigit x = true := by
    intro x hx
    obtain ⟨e, he, hx2⟩ := hmemrev x hx
    rw [hx2]; exact decDigitChar_isDigit he
  unfold parseIntBase10 natDecimal
  simp only [String.data]
  rw [hrev, List.dropWhile_cons_of_neg (by rw [hc]; simp [decDigitChar_not_ws hd])]
  simp only [parseSigned]
  rw [if_neg (by rw [hc]; exact decDigitChar_ne_dash hd)]
  rw [if_neg (by rw [hc]; exact decDigitChar_ne_plus hd)]
  have hall : leadingDigits (c :: rest) = c :: rest := by
    unfold leadingDigits
    apply takeWhile_of_all
    intro x hx
    exact hdigits x (by rw [hrev]; exact hx)
  rw [hall]
  have hv : digitsToNat (c :: rest) = n := by rw [← hrev, hvalue]
  simp [hv]

/-- Parsing the JS decimal rendering of a non-negative integer round-trips. -/
theorem parseIntBase10_intDecimal {i : Int} (h : 0 ≤ i) :
    parseIntBase10 (intDecimal i) = some i := by
  unfold intDecimal
  rw [if_neg (by omega)]
  rw [parseIntBase10_natDecimal]
  congr 1
  omega

theorem jsClipIndex_le (len : Nat) (i : Int) : jsClipIndex len i ≤ len := by
  unfold jsClipIndex
  split <;> omega

theorem jsClipIndex_of_nonneg_le {len : Nat} {i : Int} (h0 : 0 ≤ i)
    (h : i ≤ (len : Int)) : (jsClipIndex len i : Int) = i := by
  unfold jsClipIndex
  split <;> omega

/-- On the call pattern used by every paginate variant (`0 ≤ start ≤ len`),
`jsSlice` is a take of a drop. -/
theorem jsSlice_window (l : List α) (s e : Int) (h0 : 0 ≤ s)
    (hl : s ≤ (l.length : Int)) :
    jsSlice l s e =
      (l.drop s.toNat).take (jsClipIndex l.length e - s.toNat) := by
  unfold jsSlice
  have hs : jsClipIndex l.length s = s.toNat := by
    have := jsClipIndex_of_nonneg_le h0 hl
    omega
  rw [hs, List.drop_take]

theorem jsSlice_length (l : List α) (s e : Int) (h0 : 0 ≤ s)
    (hl : s ≤ (l.length : Int)) :
    (jsSlice l s e).length =
      min (jsClipIndex l.length e - s.toNat) (l.length - s.toNat) := by
  rw [jsSlice_window l s e h0 hl]
  simp [List.length_take, List.length_drop]

/-- The page is an initial segment of the suffix of the list at its start
offset: `page = drop s |>.take page.length`. -/
theorem jsSlice_as_take_drop (l : List α) (s e : Int) (h0 : 0 ≤ s)
    (hl : s ≤ (l.length : Int)) :
    jsSlice l s e = (l.drop s.toNat).take (jsSlice l s e).length := by
  conv_lhs => rw [jsSlice_window l s e h0 hl]
  rw [jsSlice_length l s e h0 hl, List.take_eq_take]
  simp only [List.length_drop]
  omega

/-! ### Internal lemmas about token resolution -/

/-- A token is rejected for a given total when it does not parse, parses
negative, or parses at or beyond the total. -/
def tokenRejected (tok : String) (total : Int) : Prop :=
  ∀ p, parseIntBase10 tok = some p → p < 0 ∨ total ≤ p

theorem resolveStartIndex_generic_valid (tok : String) (total p : Int)
    (hp : parseIntBase10 tok = some p) (h0 : 0 ≤ p) (hlt : p < total) :
    Pagination.resolveStartIndex (some tok) total = ⟨p, false⟩ := by
  simp only [Pagination.resolveStartIndex, hp]
  rw [if_neg]
  simp only [Bool.or_eq_true, decide_eq_true_eq, not_or, not_lt]
  omega

theorem resolveStartIndex_generic_invalid (tok : String) (total : Int)
    (h : tokenRejected tok total) :
    Pagination.resolveStartIndex (some tok) total = ⟨0, true⟩ := by
  cases hp : parseIntBase10 tok with
  | none => simp only [Pagination.resolveStartIndex, hp]
  | some p =>
    simp only [Pagination.resolveStartIndex, hp]
    split
    · rfl
    · rename_i hcond
      simp only [Bool.or_eq_true, decide_eq_true_eq] at hcond
      have h1 := h p hp
      exfalso
      omega

theorem resolveStartIndex_standalone_valid (tok : String) (total p : Int)
    (hp : parseIntBase10 tok = some p) (h0 : 0 ≤ p) (hlt : p < total) :
    NetPagination.resolveStartIndex (some tok) total = ⟨p, false⟩ := by
  simp only [NetPagination.resolveStartIndex, hp]
  rw [if_neg]
  simp only [Bool.or_eq_true, decide_eq_true_eq, not_or, not_lt]
  omega

theorem resolveStartIndex_standalone_invalid (tok : String) (total : Int)
    (h : tokenRejected tok total) :
    NetPagination.resolveStartIndex (some tok) total = ⟨0, true⟩ := by
  cases hp : parseIntBase10 tok with
  | none => simp only [NetPagination.resolveStartIndex, hp]
  | some p =>
    simp only [NetPagination.resolveStartIndex, hp]
    split
    · rfl
    · rename_i hcond
      simp only [Bool.or_eq_true, decide_eq_true_eq] at hcond
      have h1 := h p hp
      exfalso
      omega

theorem resolveStartIndex_listing_valid (tok : String) (total p : Int)
    (hp : parseIntBase10 tok = some p) (h0 : 0 ≤ p) (hlt : p < total) :
    NetworkListing.resolveStartIndex (some tok) total = ⟨p, false⟩ := by
  simp only [NetworkListing.resolveStartIndex, hp]
  rw [if_neg]
  simp only [Bool.or_eq_true, decide_eq_true_eq, not_or, not_lt]
  omega

theorem resolveStartIndex_listing_invalid (tok : String) (total : Int)
    (h : tokenRejected tok total) :
    NetworkListing.resolveStartIndex (some tok) total
      = ⟨0, decide (total > 0)⟩ := by
  cases hp : parseIntBase10 tok with
  | none => simp only [NetworkListing.resolveStartIndex, hp]
  | some p =>
    simp only [NetworkListing.resolveStartIndex, hp]
    split
    · rfl
    · rename_i hcond
      simp only [Bool.or_eq_true, decide_eq_true_eq] at hcond
      have h1 := h p hp
      exfalso
      omega

theorem resolveStartIndex_generic_bounds (tok : Option String) (total : Int)
    (ht : 0 ≤ total) :
    0 ≤ (Pagination.resolveStartIndex tok total).startIndex ∧
      (Pagination.resolveStartIndex tok total).startIndex ≤ total := by
  cases tok with
  | none => simp [Pagination.resolveStartIndex, ht]
  | some t =>
    cases hp : parseIntBase10 t with
    | none => simp [Pagination.resolveStartIndex, hp, ht]
    | some p =>
      simp only [Pagination.resolveStartIndex, hp]
      split
      · simp [ht]
      · rename_i hcond
        simp only [Bool.or_eq_true, decide_eq_true_eq] at hcond
        refine ⟨?_, ?_⟩ <;> simp <;> omega

theorem resolveStartIndex_standalone_bounds (tok : Option String) (total : Int)
    (ht : 0 ≤ total) :
    0 ≤ (NetPagination.resolveStartIndex tok total).startIndex ∧
      (NetPagination.resolveStartIndex tok total).startIndex ≤ total := by
  cases tok with
  | none => simp [NetPagination.resolveStartIndex, ht]
  | some t =>
    cases hp : parseIntBase10 t with
    | none => simp [NetPagination.resolveStartIndex, hp, ht]
    | some p =>
      simp only [NetPagination.resolveStartIndex, hp]
      split
      · simp [ht]
      · rename_i hcond
        simp only [Bool.or_eq_true, decide_eq_true_eq] at hcond
        refine ⟨?_, ?_⟩ <;> simp <;> omega

theorem resolveStartIndex_listing_bounds (tok : Option String) (total : Int)
    (ht : 0 ≤ total) :
    0 ≤ (NetworkListing.resolveStartIndex tok total).startIndex ∧
      (NetworkListing.resolveStartIndex tok total).startIndex ≤ total := by
  cases tok with
  | none => simp [NetworkListing.resolveStartIndex, ht]
  | some t =>
    cases hp : parseIntBase10 t with
    | none => simp [NetworkListing.resolveStartIndex, hp, ht]
    | some p =>
      simp only [NetworkListing.resolveStartIndex, hp]
      split
      · simp [ht]
      · rename_i hcond
        simp only [Bool.or_eq_true, decide_eq_true_eq] at hcond
        refine ⟨?_, ?_⟩ <;> simp <;> omega

example :
    (Pagination.paginate [0, 1, 2, 3, 4]
        (some ⟨some 2, some "invalid"⟩)).invalidToken = true := by decide

example :
    (Pagination.paginate (List.range 30) (some ⟨some 10, none⟩)).nextPageToken
      = some "10" := by decide

example :
    (NetworkListing.paginateNetworkRequests [] (some ⟨none, some "5", none⟩)).invalidToken
      = false := by decide

example :
    (NetPagination.paginateNetworkRequests [] (some ⟨none, some "5"⟩)).invalidToken
      = true := by decide

example : parseIntBase10 " 10abc" = some 10 := by decide

example : parseIntBase10 "-3" = some (-3) := by decide

example : parseIntBase10 "abc" = none := by decide

/-! ### Claim C9: the two allow-lists -/

/-- C9 (counterexample): the claim that the two `FILTERABLE_RESOURCE_TYPES`
constants contain exactly the same category values in the same order is
false: the filter-side list (12 entries) and the tool-schema list
(19 entries) are different lists. -/
theorem c9_allowlists_differ :
    NetworkListing.FILTERABLE_RESOURCE_TYPES
      ≠ NetworkTool.FILTERABLE_RESOURCE_TYPES := by
  decide

/-- C9 (amended): the filter allow-list is a proper, order-preserving
sublist of the tool-facing schema allow-list rather than the same list;
for example "texttrack" is accepted by the tool schema but is not a
category the filter recognizes. -/
theorem c9_allowlists_sublist :
    NetworkListing.FILTERABLE_RESOURCE_TYPES.Sublist
        NetworkTool.FILTERABLE_RESOURCE_TYPES
      ∧ "texttrack" ∈ NetworkTool.FILTERABLE_RESOURCE_TYPES
      ∧ "texttrack" ∉ NetworkListing.FILTERABLE_RESOURCE_TYPES := by
  refine ⟨?_, by decide, by decide⟩
  decide

/-! ### Claim C1: invalid tokens and the empty collection -/

/-- C1 (counterexample): in `paginateNetworkRequests` of the
network-listing document, a provided token against an empty collection is
NOT flagged: `invalidToken` comes out `false`, contradicting the claim
that any rejected token yields `invalidToken = true` in particular when
`total = 0`. -/
theorem c1_empty_collection_token_not_flagged :
    (NetworkListing.paginateNetworkRequests []
        (some ⟨none, some "5", none⟩)).invalidToken = false := by
  decide

/-- C1 (amended): a rejected token (unparseable, negative, or `≥ total`)
resolves to start offset 0 in every variant; `invalidToken` is `true`
unconditionally in the generic and standalone variants, but equals
`total > 0` in the network-listing variant, so it stays `false` there for
an empty collection. -/
theorem c1_rejected_token_behavior (tok : String) (total : Int)
    (h : tokenRejected tok total) :
    Pagination.resolveStartIndex (some tok) total = ⟨0, true⟩ ∧
    NetPagination.resolveStartIndex (some tok) total = ⟨0, true⟩ ∧
    NetworkListing.resolveStartIndex (some tok) total
      = ⟨0, decide (total > 0)⟩ :=
  ⟨resolveStartIndex_generic_invalid tok total h,
   resolveStartIndex_standalone_invalid tok total h,
   resolveStartIndex_listing_invalid tok total h⟩

/-- C1 witness: the amended statement at token "5" against `total = 0`. -/
theorem c1_rejected_token_behavior_witness :
    Pagination.resolveStartIndex (some "5") 0 = ⟨0, true⟩ ∧
    NetPagination.resolveStartIndex (some "5") 0 = ⟨0, true⟩ ∧
    NetworkListing.resolveStartIndex (some "5") 0
      = ⟨0, decide ((0 : Int) > 0)⟩ :=
  c1_rejected_token_behavior "5" 0 (fun p hp => by
    have h0 : parseIntBase10 "5" = some 5 := by decide
    rw [h0] at hp
    have h1 := Option.some.inj hp
    omega)

/-! ### Claim C3: page-size resolution -/

/-- C3 (counterexample): the claimed page-size rule fails on the generic
`paginate` path: with 30 items, `pageSize` unspecified and a token
present, the effective page size is the fixed default 20, not
`total = 30` as the claim requires. -/
theorem c3_generic_paginate_default_ignores_total :
    (Pagination.paginate (List.range 30)
        (some ⟨none, some "0"⟩)).items.length = 20 ∧
    (Pagination.paginate (List.range 30)
        (some ⟨none, some "0"⟩)).endIndex ≠ 30 :=
  ⟨by decide, by decide⟩

/-- C3 (amended): the claimed rule is exactly `validatePageSize`, which
only the two network variants call (the generic `paginate` instead uses
`pageSize ?? 20` with no validation): unspecified page size defaults to
`total` when `total > 0` and to 20 when `total = 0`; a non-positive page
size falls back to 20; otherwise the size is clamped to
`min pageSize (max total 1)`; the result is never below 1; and the two
network variants agree. -/
theorem c3_validate_page_size (pageSize : Option Int) (total : Int)
    (ht : 0 ≤ total) :
    (pageSize = none → 0 < total →
      NetworkListing.validatePageSize pageSize total = total) ∧
    (pageSize = none → total = 0 →
      NetworkListing.validatePageSize pageSize total = 20) ∧
    (∀ ps, pageSize = some ps → ps ≤ 0 →
      NetworkListing.validatePageSize pageSize total = 20) ∧
    (∀ ps, pageSize = some ps → 0 < ps →
      NetworkListing.validatePageSize pageSize total = min ps (max total 1)) ∧
    1 ≤ NetworkListing.validatePageSize pageSize total ∧
    NetPagination.validatePageSize pageSize total
      = NetworkListing.validatePageSize pageSize total := by
  have hnone : NetworkListing.validatePageSize none total
      = if total = 0 then 20 else total := by
    simp [NetworkListing.validatePageSize, NetworkListing.DEFAULT_PAGE_SIZE,
      beq_iff_eq]
  have hsome : ∀ ps : Int, NetworkListing.validatePageSize (some ps) total
      = if ps ≤ 0 then 20 else min ps (max total 1) := by
    intro ps
    simp [NetworkListing.validatePageSize, NetworkListing.DEFAULT_PAGE_SIZE]
  refine ⟨?_, ?_, ?_, ?_, ?_, rfl⟩
  · rintro rfl hpos
    rw [hnone, if_neg (by omega)]
  · rintro rfl hz
    rw [hnone, if_pos hz]
  · intro ps h hle
    subst h
    rw [hsome, if_pos hle]
  · intro ps h hpos
    subst h
    rw [hsome, if_neg (by omega)]
  · cases pageSize with
    | none => rw [hnone]; split <;> omega
    | some ps => rw [hsome]; split <;> omega

/-- C3 witness: the amended statement at `pageSize = 50`, `total = 7`. -/
theorem c3_validate_page_size_witness :
    (∀ ps, (some (50 : Int)) = some ps → 0 < ps →
      NetworkListing.validatePageSize (some 50) 7 = min ps (max 7 1)) ∧
    1 ≤ NetworkListing.validatePageSize (some 50) 7 :=
  ⟨(c3_validate_page_size (some 50) 7 (by decide)).2.2.2.1,
   (c3_validate_page_size (some 50) 7 (by decide)).2.2.2.2.1⟩

/-! ### Claim C6: the echoed filter specification -/

/-- C6 (counterexample): `appliedRequestType` is not the sanitized filter
specification: for a requested array `["bogus"]` (not in the allow-list),
sanitization yields `none`, but the listing result echoes the raw
`["bogus"]`. -/
theorem c6_applied_type_not_sanitized :
    (NetworkListing.paginateNetworkRequests []
        (some ⟨none, none, some (ReqTypeSpec.multiple ["bogus"])⟩)).appliedRequestType
      ≠ NetworkListing.sanitizeRequestTypeFilter
          (some (ReqTypeSpec.multiple ["bogus"])) := by
  decide

/-- C6 (amended): `appliedRequestType` echoes `options.requestType`
verbatim and unsanitized (and is `none` when no options are passed);
`sanitizeRequestTypeFilter` is applied only if the caller pre-sanitizes
the value before calling `paginateNetworkRequests`. -/
theorem c6_applied_type_echoes_input (requests : List HTTPRequest)
    (opts : NetworkListing.NetworkRequestsListingOptions) :
    (NetworkListing.paginateNetworkRequests requests
        (some opts)).appliedRequestType = opts.requestType ∧
    (NetworkListing.paginateNetworkRequests requests
        none).appliedRequestType = none := by
  constructor
  · simp only [NetworkListing.paginateNetworkRequests, Option.getD_some]
    split <;> rfl
  · simp only [NetworkListing.paginateNetworkRequests, Option.getD_none]
    split <;> rfl

/-! ### Claim C5: filter semantics -/

theorem contains_eq_decide_mem (l : List String) (a : String) :
    l.contains a = decide (a ∈ l) := by
  simp [List.contains]

/-- C5: with no spec or an empty requested array the filter returns the
input unchanged; for a non-empty spec of recognized categories it returns
exactly the order-preserving subsequence of requests whose resource type
is an allow-listed category in the requested set; and on such a filter no
request with an unrecognized resource type survives. -/
theorem c5_filter_semantics (requests : List HTTPRequest) :
    NetworkListing.filterNetworkRequests requests none = requests ∧
    NetworkListing.filterNetworkRequests requests
        (some (ReqTypeSpec.multiple [])) = requests ∧
    (∀ spec : ReqTypeSpec, reqTypeValues spec ≠ [] →
      (∀ v ∈ reqTypeValues spec, v ∈ NetworkListing.FILTERABLE_RESOURCE_TYPES) →
      NetworkListing.filterNetworkRequests requests (some spec)
        = requests.filter (fun r =>
            decide (r.resourceType ∈ NetworkListing.FILTERABLE_RESOURCE_TYPES)
              && decide (r.resourceType ∈ reqTypeValues spec))) ∧
    (∀ spec : ReqTypeSpec, reqTypeValues spec ≠ [] →
      (∀ v ∈ reqTypeValues spec, v ∈ NetworkListing.FILTERABLE_RESOURCE_TYPES) →
      ∀ r ∈ NetworkListing.filterNetworkRequests requests (some spec),
        r.resourceType ∈ NetworkListing.FILTERABLE_RESOURCE_TYPES) := by
  have h3 : ∀ spec : ReqTypeSpec, reqTypeValues spec ≠ [] →
      (∀ v ∈ reqTypeValues spec, v ∈ NetworkListing.FILTERABLE_RESOURCE_TYPES) →
      NetworkListing.filterNetworkRequests requests (some spec)
        = requests.filter (fun r =>
            decide (r.resourceType ∈ NetworkListing.FILTERABLE_RESOURCE_TYPES)
              && decide (r.resourceType ∈ reqTypeValues spec)) := by
    intro spec hne hsub
    cases spec with
    | single v =>
      have hv : v ∈ NetworkListing.FILTERABLE_RESOURCE_TYPES :=
        hsub v (by simp [reqTypeValues])
      have hvne : v ≠ "" := by
        intro h
        rw [h] at hv
        exact absurd hv (by decide)
      simp only [NetworkListing.filterNetworkRequests,
        NetworkListing.reqTypeTruthy]
      rw [if_neg (by simp [hvne])]
      rw [if_neg (by simp)]
      apply List.filter_congr
      intro r hr
      simp [NetworkListing.isFilterableResourceType, contains_eq_decide_mem,
        reqTypeValues]
    | multiple vs =>
      have hvs : vs ≠ [] := by simpa [reqTypeValues] using hne
      simp only [NetworkListing.filterNetworkRequests,
        NetworkListing.reqTypeTruthy]
      rw [if_neg (by simp)]
      rw [if_neg (by simp [hvs])]
      apply List.filter_congr
      intro r hr
      simp [NetworkListing.isFilterableResourceType, contains_eq_decide_mem,
        reqTypeValues]
  refine ⟨rfl, rfl, h3, ?_⟩
  intro spec hne hsub r hr
  rw [h3 spec hne hsub] at hr
  have := (List.mem_filter.mp hr).2
  simp only [Bool.and_eq_true, decide_eq_true_eq] at this
  exact this.1

/-- C5 witness: a mixed collection filtered by `["image", "script"]`. -/
theorem c5_filter_semantics_witness :
    NetworkListing.filterNetworkRequests
        [⟨"a", "document"⟩, ⟨"b", "image"⟩, ⟨"c", "weird"⟩, ⟨"d", "script"⟩]
        (some (ReqTypeSpec.multiple ["image", "script"]))
      = [⟨"a", "document"⟩, ⟨"b", "image"⟩, ⟨"c", "weird"⟩,
          ⟨"d", "script"⟩].filter (fun r =>
            decide (r.resourceType ∈ NetworkListing.FILTERABLE_RESOURCE_TYPES)
              && decide (r.resourceType
                ∈ reqTypeValues (ReqTypeSpec.multiple ["image", "script"]))) :=
  (c5_filter_semantics
      [⟨"a", "document"⟩, ⟨"b", "image"⟩, ⟨"c", "weird"⟩, ⟨"d", "script"⟩]).2.2.1
    (ReqTypeSpec.multiple ["image", "script"]) (by decide) (by decide)

/-! ### Claim C4: filter before pagination -/

/-- C4: the listing result's `total` is the post-filter count, and the
returned page together with `startIndex`/`endIndex` is a contiguous
window of the filtered subsequence, never of the raw collection. -/
theorem c4_filter_then_paginate (requests : List HTTPRequest)
    (options : Option NetworkListing.NetworkRequestsListingOptions) :
    (NetworkListing.paginateNetworkRequests requests options).total
      = ((NetworkListing.filterNetworkRequests requests
          ((options.getD NetworkListing.emptyOptions).requestType)).length : Int) ∧
    (NetworkListing.paginateNetworkRequests requests options).requests
      = ((NetworkListing.filterNetworkRequests requests
            ((options.getD NetworkListing.emptyOptions).requestType)).drop
          (NetworkListing.paginateNetworkRequests requests
            options).startIndex.toNat).take
          (NetworkListing.paginateNetworkRequests requests
            options).requests.length ∧
    (NetworkListing.paginateNetworkRequests requests options).endIndex
      = (NetworkListing.paginateNetworkRequests requests options).startIndex
        + ((NetworkListing.paginateNetworkRequests requests
            options).requests.length : Int) := by
  simp only [NetworkListing.paginateNetworkRequests]
  split
  · refine ⟨rfl, ?_, by simp⟩
    simp [List.take_length]
  · have hbounds := resolveStartIndex_listing_bounds
      ((options.getD NetworkListing.emptyOptions).pageToken)
      ((NetworkListing.filterNetworkRequests requests
        ((options.getD NetworkListing.emptyOptions).requestType)).length : Int)
      (by positivity)
    refine ⟨rfl, ?_, rfl⟩
    exact jsSlice_as_take_drop _ _ _ hbounds.1 hbounds.2

/-! ### Claim C2: result invariants -/

theorem pageLen_bound (l : List α) (s ps : Int) (h0 : 0 ≤ s)
    (hl : s ≤ (l.length : Int)) :
    s + ((jsSlice l s (s + ps)).length : Int) ≤ (l.length : Int) := by
  have h1 := jsSlice_length l s (s + ps) h0 hl
  have h2 : (jsSlice l s (s + ps)).length ≤ l.length - s.toNat := by
    rw [h1]
    exact Nat.min_le_right _ _
  omega

theorem ifSome_ne_none {c : Prop} [Decidable c] (v : α) :
    ((if c then some v else none) ≠ none) ↔ c := by
  by_cases h : c <;> simp [h]

/-- C2: every result of each of the three pagination functions satisfies
`0 ≤ startIndex ≤ endIndex ≤ total`, the page length equals
`endIndex - startIndex`, `nextPageToken` is present iff `endIndex < total`,
and `previousPageToken` is present iff `startIndex > 0` (for the
network-listing variant, `total` is the result's own post-filter `total`
field; for the other two it is the input length). -/
theorem c2_result_invariants (T : Type) (items : List T)
    (options : Option Pagination.PaginationOptions)
    (requests nrequests : List HTTPRequest)
    (lopts : Option NetworkListing.NetworkRequestsListingOptions)
    (sopts : Option NetPagination.NetworkPaginationOptions) :
    (0 ≤ (Pagination.paginate items options).startIndex
      ∧ (Pagination.paginate items options).startIndex
          ≤ (Pagination.paginate items options).endIndex
      ∧ (Pagination.paginate items options).endIndex ≤ (items.length : Int)
      ∧ ((Pagination.paginate items options).items.length : Int)
          = (Pagination.paginate items options).endIndex
            - (Pagination.paginate items options).startIndex
      ∧ ((Pagination.paginate items options).nextPageToken ≠ none
          ↔ (Pagination.paginate items options).endIndex < (items.length : Int))
      ∧ ((Pagination.paginate items options).previousPageToken ≠ none
          ↔ 0 < (Pagination.paginate items options).startIndex))
    ∧ (0 ≤ (NetworkListing.paginateNetworkRequests nrequests lopts).startIndex
      ∧ (NetworkListing.paginateNetworkRequests nrequests lopts).startIndex
          ≤ (NetworkListing.paginateNetworkRequests nrequests lopts).endIndex
      ∧ (NetworkListing.paginateNetworkRequests nrequests lopts).endIndex
          ≤ (NetworkListing.paginateNetworkRequests nrequests lopts).total
      ∧ ((NetworkListing.paginateNetworkRequests nrequests
            lopts).requests.length : Int)
          = (NetworkListing.paginateNetworkRequests nrequests lopts).endIndex
            - (NetworkListing.paginateNetworkRequests nrequests lopts).startIndex
      ∧ ((NetworkListing.paginateNetworkRequests nrequests lopts).nextPageToken
            ≠ none
          ↔ (NetworkListing.paginateNetworkRequests nrequests lopts).endIndex
            < (NetworkListing.paginateNetworkRequests nrequests lopts).total)
      ∧ ((NetworkListing.paginateNetworkRequests nrequests
            lopts).previousPageToken ≠ none
          ↔ 0 < (NetworkListing.paginateNetworkRequests nrequests
            lopts).startIndex))
    ∧ (0 ≤ (NetPagination.paginateNetworkRequests requests sopts).startIndex
      ∧ (NetPagination.paginateNetworkRequests requests sopts).startIndex
          ≤ (NetPagination.paginateNetworkRequests requests sopts).endIndex
      ∧ (NetPagination.paginateNetworkRequests requests sopts).endIndex
          ≤ (requests.length : Int)
      ∧ ((NetPagination.paginateNetworkRequests requests
            sopts).requests.length : Int)
          = (NetPagination.paginateNetworkRequests requests sopts).endIndex
            - (NetPagination.paginateNetworkRequests requests sopts).startIndex
      ∧ ((NetPagination.paginateNetworkRequests requests sopts).nextPageToken
            ≠ none
          ↔ (NetPagination.paginateNetworkRequests requests sopts).endIndex
            < (requests.length : Int))
      ∧ ((NetPagination.paginateNetworkRequests requests
            sopts).previousPageToken ≠ none
          ↔ 0 < (NetPagination.paginateNetworkRequests requests
            sopts).startIndex)) := by
  refine ⟨?_, ?_, ?_⟩
  · simp only [Pagination.paginate]
    split
    · dsimp only
      refine ⟨le_refl 0, by omega, le_refl _, by omega, by simp, by simp⟩
    · dsimp only
      have ht : (0 : Int) ≤ (items.length : Int) := by positivity
      have hbounds := resolveStartIndex_generic_bounds
        ((options.getD Pagination.emptyOptions).pageToken)
        (items.length : Int) ht
      have hlen := pageLen_bound items
        (Pagination.resolveStartIndex
          ((options.getD Pagination.emptyOptions).pageToken)
          (items.length : Int)).startIndex
        (((options.getD Pagination.emptyOptions).pageSize).getD
          Pagination.DEFAULT_PAGE_SIZE) hbounds.1 hbounds.2
      refine ⟨hbounds.1, by omega, hlen, by omega,
        ifSome_ne_none _, ifSome_ne_none _⟩
  · simp only [NetworkListing.paginateNetworkRequests]
    split
    · dsimp only
      refine ⟨le_refl 0, by omega, le_refl _, by omega, by simp, by simp⟩
    · dsimp only
      have ht : (0 : Int) ≤ ((NetworkListing.filterNetworkRequests nrequests
          ((lopts.getD NetworkListing.emptyOptions).requestType)).length : Int) := by
        positivity
      have hbounds := resolveStartIndex_listing_bounds
        ((lopts.getD NetworkListing.emptyOptions).pageToken)
        ((NetworkListing.filterNetworkRequests nrequests
          ((lopts.getD NetworkListing.emptyOptions).requestType)).length : Int) ht
      have hlen := pageLen_bound
        (NetworkListing.filterNetworkRequests nrequests
          ((lopts.getD NetworkListing.emptyOptions).requestType))
        (NetworkListing.resolveStartIndex
          ((lopts.getD NetworkListing.emptyOptions).pageToken)
          ((NetworkListing.filterNetworkRequests nrequests
            ((lopts.getD NetworkListing.emptyOptions).requestType)).length : Int)).startIndex
        (NetworkListing.validatePageSize
          ((lopts.getD NetworkListing.emptyOptions).pageSize)
          ((NetworkListing.filterNetworkRequests nrequests
            ((lopts.getD NetworkListing.emptyOptions).requestType)).length : Int))
        hbounds.1 hbounds.2
      refine ⟨hbounds.1, by omega, hlen, by omega,
        ifSome_ne_none _, ifSome_ne_none _⟩
  · simp only [NetPagination.paginateNetworkRequests]
    split
    · dsimp only
      refine ⟨le_refl 0, by omega, le_refl _, by omega, by simp, by simp⟩
    · dsimp only
      have ht : (0 : Int) ≤ (requests.length : Int) := by positivity
      have hbounds := resolveStartIndex_standalone_bounds
        ((sopts.getD NetPagination.emptyOptions).pageToken)
        (requests.length : Int) ht
      have hlen := pageLen_bound requests
        (NetPagination.resolveStartIndex
          ((sopts.getD NetPagination.emptyOptions).pageToken)
          (requests.length : Int)).startIndex
        (NetPagination.validatePageSize
          ((sopts.getD NetPagination.emptyOptions).pageSize)
          (requests.length : Int)) hbounds.1 hbounds.2
      refine ⟨hbounds.1, by omega, hlen, by omega,
        ifSome_ne_none _, ifSome_ne_none _⟩

/-! ### Claim C7: token derivation -/

/-- C7: on the paginated path of each variant, `nextPageToken` is the
decimal rendering of `endIndex` exactly when `endIndex < total`, and
`previousPageToken` is the decimal rendering of
`max (startIndex - pageSize) 0` exactly when `startIndex > 0`, where
`pageSize` is the current call's resolved page size. -/
theorem c7_token_derivation :
    (∀ (T : Type) (items : List T) (opts : Pagination.PaginationOptions),
      Pagination.noPaginationOptions opts = false →
      (Pagination.paginate items (some opts)).nextPageToken
          = (if (Pagination.paginate items (some opts)).endIndex
                < (items.length : Int)
             then some (intDecimal (Pagination.paginate items
                (some opts)).endIndex)
             else none) ∧
      (Pagination.paginate items (some opts)).previousPageToken
          = (if 0 < (Pagination.paginate items (some opts)).startIndex
             then some (intDecimal (max ((Pagination.paginate items
                  (some opts)).startIndex
                - opts.pageSize.getD Pagination.DEFAULT_PAGE_SIZE) 0))
             else none))
    ∧ (∀ (requests : List HTTPRequest)
        (opts : NetworkListing.NetworkRequestsListingOptions),
      NetworkListing.hasPagination opts = true →
      (NetworkListing.paginateNetworkRequests requests
          (some opts)).nextPageToken
          = (if (NetworkListing.paginateNetworkRequests requests
                (some opts)).endIndex
                < (NetworkListing.paginateNetworkRequests requests
                  (some opts)).total
             then some (intDecimal (NetworkListing.paginateNetworkRequests
                requests (some opts)).endIndex)
             else none) ∧
      (NetworkListing.paginateNetworkRequests requests
          (some opts)).previousPageToken
          = (if 0 < (NetworkListing.paginateNetworkRequests requests
                (some opts)).startIndex
             then some (intDecimal (max ((NetworkListing.paginateNetworkRequests
                  requests (some opts)).startIndex
                - NetworkListing.validatePageSize opts.pageSize
                    (NetworkListing.paginateNetworkRequests requests
                      (some opts)).total) 0))
             else none))
    ∧ (∀ (requests : List HTTPRequest)
        (opts : NetPagination.NetworkPaginationOptions),
      NetPagination.noPaginationOptions opts = false →
      (NetPagination.paginateNetworkRequests requests
          (some opts)).nextPageToken
          = (if (NetPagination.paginateNetworkRequests requests
                (some opts)).endIndex < (requests.length : Int)
             then some (intDecimal (NetPagination.paginateNetworkRequests
                requests (some opts)).endIndex)
             else none) ∧
      (NetPagination.paginateNetworkRequests requests
          (some opts)).previousPageToken
          = (if 0 < (NetPagination.paginateNetworkRequests requests
                (some opts)).startIndex
             then some (intDecimal (max ((NetPagination.paginateNetworkRequests
                  requests (some opts)).startIndex
                - NetPagination.validatePageSize opts.pageSize
                    (requests.length : Int)) 0))
             else none)) := by
  refine ⟨?_, ?_, ?_⟩
  · intro T items opts h
    simp only [Pagination.paginate, Option.isNone_some, Option.getD_some, h,
      Bool.false_or, Bool.false_eq_true, if_false]
    exact ⟨trivial, trivial⟩
  · intro requests opts h
    simp only [NetworkListing.paginateNetworkRequests, Option.getD_some, h,
      Bool.not_true, Bool.false_eq_true, if_false]
    exact ⟨trivial, trivial⟩
  · intro requests opts h
    simp only [NetPagination.paginateNetworkRequests, Option.isNone_some,
      Option.getD_some, h, Bool.false_or, Bool.false_eq_true, if_false]
    exact ⟨trivial, trivial⟩

/-- C7 witness: the generic component at `n = 25`, `pageSize = 10`,
token "10". -/
theorem c7_token_derivation_witness :
    (Pagination.paginate (List.range 25)
        (some ⟨some 10, some "10"⟩)).nextPageToken
        = (if (Pagination.paginate (List.range 25)
              (some ⟨some 10, some "10"⟩)).endIndex
              < ((List.range 25).length : Int)
           then some (intDecimal (Pagination.paginate (List.range 25)
              (some ⟨some 10, some "10"⟩)).endIndex)
           else none) ∧
    (Pagination.paginate (List.range 25)
        (some ⟨some 10, some "10"⟩)).previousPageToken
        = (if 0 < (Pagination.paginate (List.range 25)
              (some ⟨some 10, some "10"⟩)).startIndex
           then some (intDecimal (max ((Pagination.paginate (List.range 25)
                (some ⟨some 10, some "10"⟩)).startIndex
              - (Pagination.PaginationOptions.mk (some 10)
                  (some "10")).pageSize.getD Pagination.DEFAULT_PAGE_SIZE) 0))
           else none) :=
  c7_token_derivation.1 Nat (List.range 25) ⟨some 10, some "10"⟩ (by decide)

/-! ### Claim C10: tokens with a numeric leading run -/

/-- C10: any token whose leading characters parse under base-10 parseInt
to an in-range integer `p` is accepted with `startIndex = p` and
`invalidToken = false` — including tokens with leading whitespace or
trailing non-numeric characters. -/
theorem c10_numeric_token_acceptance (tok : String) (p total : Int)
    (hp : parseIntBase10 tok = some p) (h0 : 0 ≤ p) (hlt : p < total) :
    Pagination.resolveStartIndex (some tok) total = ⟨p, false⟩ ∧
    NetworkListing.resolveStartIndex (some tok) total = ⟨p, false⟩ ∧
    NetPagination.resolveStartIndex (some tok) total = ⟨p, false⟩ ∧
    (∀ (T : Type) (items : List T) (ps : Option Int),
      (items.length : Int) = total →
      (Pagination.paginate items (some ⟨ps, some tok⟩)).startIndex = p ∧
      (Pagination.paginate items (some ⟨ps, some tok⟩)).invalidToken
        = false) := by
  refine ⟨resolveStartIndex_generic_valid tok total p hp h0 hlt,
    resolveStartIndex_listing_valid tok total p hp h0 hlt,
    resolveStartIndex_standalone_valid tok total p hp h0 hlt, ?_⟩
  intro T items ps hlen
  have hres := resolveStartIndex_generic_valid tok total p hp h0 hlt
  simp only [Pagination.paginate, Option.isNone_some, Option.getD_some]
  rw [if_neg (by simp [Pagination.noPaginationOptions])]
  dsimp only
  rw [hlen, hres]
  exact ⟨rfl, rfl⟩

/-- C10 witness: the token " 10abc" (leading whitespace, trailing junk)
against 25 items starts the page at offset 10 with no invalid flag. -/
theorem c10_numeric_token_acceptance_witness :
    Pagination.resolveStartIndex (some " 10abc") 25 = ⟨10, false⟩ ∧
    NetworkListing.resolveStartIndex (some " 10abc") 25 = ⟨10, false⟩ ∧
    NetPagination.resolveStartIndex (some " 10abc") 25 = ⟨10, false⟩ ∧
    (Pagination.paginate (List.range 25)
        (some ⟨some 4, some " 10abc"⟩)).startIndex = 10 ∧
    (Pagination.paginate (List.range 25)
        (some ⟨some 4, some " 10abc"⟩)).invalidToken = false := by
  have h := c10_numeric_token_acceptance " 10abc" 10 25 (by decide) (by decide)
    (by decide)
  have h4 := h.2.2.2 Nat (List.range 25) (some 4) (by decide)
  exact ⟨h.1, h.2.1, h.2.2.1, h4.1, h4.2⟩

/-! ### Claim C8: monotonic token chaining -/

theorem jsClipIndex_nonneg (len : Nat) (i : Int) (h : 0 ≤ i) :
    jsClipIndex len i = min i.toNat len := by
  unfold jsClipIndex
  rw [if_neg (by omega)]
  omega

/-- One paginated call of the generic `paginate` at the in-range offset
token `intDecimal k`: the page is the window of the collection at `k`, it
is non-empty, it stays inside the collection, and the next token is the
rendered end offset exactly when the end is strictly inside. -/
theorem paginate_step {T : Type} (items : List T) (p : Int) (hp : 0 < p)
    (k : Nat) (hk : k < items.length) :
    (Pagination.paginate items
        (some ⟨some p, some (intDecimal (k : Int))⟩)).items
      = (items.drop k).take (jsSlice items (k : Int) ((k : Int) + p)).length
    ∧ (k : Int) + ((jsSlice items (k : Int) ((k : Int) + p)).length : Int)
        ≤ (items.length : Int)
    ∧ (k : Int)
        < (k : Int) + ((jsSlice items (k : Int) ((k : Int) + p)).length : Int)
    ∧ (Pagination.paginate items
        (some ⟨some p, some (intDecimal (k : Int))⟩)).nextPageToken
      = (if (k : Int) + ((jsSlice items (k : Int) ((k : Int) + p)).length : Int)
            < (items.length : Int)
         then some (intDecimal ((k : Int)
            + ((jsSlice items (k : Int) ((k : Int) + p)).length : Int)))
         else none) := by
  have hparse : parseIntBase10 (intDecimal (k : Int)) = some (k : Int) :=
    parseIntBase10_intDecimal (by positivity)
  have hres := resolveStartIndex_generic_valid (intDecimal (k : Int))
    (items.length : Int) (k : Int) hparse (by positivity) (by exact_mod_cast hk)
  have h0 : (0 : Int) ≤ (k : Int) := by positivity
  have hsle : (k : Int) ≤ (items.length : Int) := by exact_mod_cast Nat.le_of_lt hk
  have hitems : (Pagination.paginate items
      (some ⟨some p, some (intDecimal (k : Int))⟩)).items
      = jsSlice items (k : Int) ((k : Int) + p) := by
    simp only [Pagination.paginate, Option.isNone_some, Option.getD_some]
    rw [if_neg (by simp [Pagination.noPaginationOptions])]
    dsimp only
    rw [hres]
  have hnext : (Pagination.paginate items
      (some ⟨some p, some (intDecimal (k : Int))⟩)).nextPageToken
      = (if (k : Int) + ((jsSlice items (k : Int) ((k : Int) + p)).length : Int)
            < (items.length : Int)
         then some (intDecimal ((k : Int)
            + ((jsSlice items (k : Int) ((k : Int) + p)).length : Int)))
         else none) := by
    simp only [Pagination.paginate, Option.isNone_some, Option.getD_some]
    rw [if_neg (by simp [Pagination.noPaginationOptions])]
    dsimp only
    rw [hres]
  have hwin := jsSlice_as_take_drop items (k : Int) ((k : Int) + p) h0 hsle
  have hlen := pageLen_bound items (k : Int) p h0 hsle
  have hprogress : (k : Int)
      < (k : Int) + ((jsSlice items (k : Int) ((k : Int) + p)).length : Int) := by
    have h1 := jsSlice_length items (k : Int) ((k : Int) + p) h0 hsle
    have h2 := jsClipIndex_nonneg items.length ((k : Int) + p) (by omega)
    omega
  refine ⟨?_, hlen, hprogress, hnext⟩
  rw [hitems]
  simpa using hwin

/-- The first paginated call of the generic `paginate` (no token). -/
theorem paginate_first {T : Type} (items : List T) (p : Int) :
    (Pagination.paginate items (some ⟨some p, none⟩)).items
      = (items.drop 0).take (jsSlice items 0 ((0 : Int) + p)).length
    ∧ (0 : Int) + ((jsSlice items 0 ((0 : Int) + p)).length : Int)
        ≤ (items.length : Int)
    ∧ (Pagination.paginate items (some ⟨some p, none⟩)).nextPageToken
      = (if (0 : Int) + ((jsSlice items 0 ((0 : Int) + p)).length : Int)
            < (items.length : Int)
         then some (intDecimal ((0 : Int)
            + ((jsSlice items 0 ((0 : Int) + p)).length : Int)))
         else none) := by
  have h0 : (0 : Int) ≤ (0 : Int) := le_refl 0
  have hsle : (0 : Int) ≤ (items.length : Int) := by positivity
  have hitems : (Pagination.paginate items (some ⟨some p, none⟩)).items
      = jsSlice items 0 ((0 : Int) + p) := by
    simp only [Pagination.paginate, Option.isNone_some, Option.getD_some]
    rw [if_neg (by simp [Pagination.noPaginationOptions])]
    dsimp only [Pagination.resolveStartIndex]
  have hnext : (Pagination.paginate items (some ⟨some p, none⟩)).nextPageToken
      = (if (0 : Int) + ((jsSlice items 0 ((0 : Int) + p)).length : Int)
            < (items.length : Int)
         then some (intDecimal ((0 : Int)
            + ((jsSlice items 0 ((0 : Int) + p)).length : Int)))
         else none) := by
    simp only [Pagination.paginate, Option.isNone_some, Option.getD_some]
    rw [if_neg (by simp [Pagination.noPaginationOptions])]
    dsimp only [Pagination.resolveStartIndex]
  have hwin := jsSlice_as_take_drop items 0 ((0 : Int) + p) h0 hsle
  have hlen := pageLen_bound items 0 p h0 hsle
  refine ⟨?_, hlen, hnext⟩
  rw [hitems]
  simpa using hwin

/-- Following the chain from a valid offset token collects exactly the
tail of the collection from that offset, and terminates. -/
theorem chainPages_from {T : Type} (items : List T) (p : Int) (hp : 0 < p) :
    ∀ (fuel k : Nat), k < items.length → items.length - k ≤ fuel →
      chainPages items p fuel (some (intDecimal (k : Int)))
        = (items.drop k, true) := by
  intro fuel
  induction fuel with
  | zero =>
    intro k hk hfuel
    omega
  | succ fuel ih =>
    intro k hk hfuel
    have hstep := paginate_step items p hp k hk
    simp only [chainPages]
    rw [hstep.2.2.2]
    by_cases hc : (k : Int)
        + ((jsSlice items (k : Int) ((k : Int) + p)).length : Int)
        < (items.length : Int)
    · rw [if_pos hc]
      have hcast : (k : Int)
          + ((jsSlice items (k : Int) ((k : Int) + p)).length : Int)
          = ((k + (jsSlice items (k : Int) ((k : Int) + p)).length : Nat) : Int) := by
        push_cast
        ring
      rw [hcast]
      dsimp only
      have hk2 : k + (jsSlice items (k : Int) ((k : Int) + p)).length
          < items.length := by
        have := hc
        omega
      have hfuel2 : items.length
          - (k + (jsSlice items (k : Int) ((k : Int) + p)).length) ≤ fuel := by
        have := hstep.2.2.1
        omega
      rw [ih (k + (jsSlice items (k : Int) ((k : Int) + p)).length) hk2 hfuel2]
      rw [hstep.1]
      rw [show items.drop (k + (jsSlice items (k : Int) ((k : Int) + p)).length)
            = (items.drop k).drop (jsSlice items (k : Int) ((k : Int) + p)).length
          from by rw [List.drop_drop]]
      rw [List.take_append_drop]
    · rw [if_neg hc]
      rw [hstep.1]
      rw [List.take_of_length_le (by simp only [List.length_drop]; omega)]

/-- The full chain of generic paginated calls, started with no token,
terminates within `total + 1` calls and concatenates to the whole
collection. -/
theorem chainPages_complete {T : Type} (items : List T) (p : Int)
    (hp : 0 < p) :
    chainPages items p (items.length + 1) none = (items, true) := by
  have hfirst := paginate_first items p
  simp only [chainPages]
  rw [hfirst.2.2]
  by_cases hc : (0 : Int) + ((jsSlice items 0 ((0 : Int) + p)).length : Int)
      < (items.length : Int)
  · rw [if_pos hc]
    have hcast : (0 : Int) + ((jsSlice items 0 ((0 : Int) + p)).length : Int)
        = (((jsSlice items 0 ((0 : Int) + p)).length : Nat) : Int) := by
      ring
    rw [hcast]
    dsimp only
    have hk2 : (jsSlice items 0 ((0 : Int) + p)).length < items.length := by
      omega
    have hfuel2 : items.length - (jsSlice items 0 ((0 : Int) + p)).length
        ≤ items.length := by
      omega
    rw [chainPages_from items p hp items.length
      (jsSlice items 0 ((0 : Int) + p)).length hk2 hfuel2]
    rw [hfirst.1, List.drop_zero]
    rw [List.take_append_drop]
  · rw [if_neg hc]
    rw [hfirst.1, List.drop_zero]
    rw [List.take_of_length_le (by omega)]



/-- One paginated listing call (no filter) at the in-range offset token
`intDecimal k`, for the network-listing variant: same window facts as the
generic step, with the validated page size. -/
theorem listing_step (requests : List HTTPRequest) (p : Int) (hp : 0 < p)
    (k : Nat) (hk : k < requests.length) :
    (NetworkListing.paginateNetworkRequests requests
        (some ⟨some p, some (intDecimal (k : Int)), none⟩)).requests
      = (requests.drop k).take (jsSlice requests (k : Int) ((k : Int)
          + NetworkListing.validatePageSize (some p)
              (requests.length : Int))).length
    ∧ (k : Int) + ((jsSlice requests (k : Int) ((k : Int)
          + NetworkListing.validatePageSize (some p)
              (requests.length : Int))).length : Int)
        ≤ (requests.length : Int)
    ∧ (k : Int) < (k : Int) + ((jsSlice requests (k : Int) ((k : Int)
          + NetworkListing.validatePageSize (some p)
              (requests.length : Int))).length : Int)
    ∧ (NetworkListing.paginateNetworkRequests requests
        (some ⟨some p, some (intDecimal (k : Int)), none⟩)).nextPageToken
      = (if (k : Int) + ((jsSlice requests (k : Int) ((k : Int)
              + NetworkListing.validatePageSize (some p)
                  (requests.length : Int))).length : Int)
            < (requests.length : Int)
         then some (intDecimal ((k : Int) + ((jsSlice requests (k : Int)
              ((k : Int) + NetworkListing.validatePageSize (some p)
                  (requests.length : Int))).length : Int)))
         else none) := by
  have hfilter : NetworkListing.filterNetworkRequests requests none
      = requests := rfl
  have hq : 0 < NetworkListing.validatePageSize (some p)
      (requests.length : Int) := by
    simp only [NetworkListing.validatePageSize]
    rw [if_neg (by omega)]
    have h1 : (0 : Int) ≤ (requests.length : Int) := by positivity
    omega
  have hparse : parseIntBase10 (intDecimal (k : Int)) = some (k : Int) :=
    parseIntBase10_intDecimal (by positivity)
  have hres := resolveStartIndex_listing_valid (intDecimal (k : Int))
    (requests.length : Int) (k : Int) hparse (by positivity)
    (by exact_mod_cast hk)
  have h0 : (0 : Int) ≤ (k : Int) := by positivity
  have hsle : (k : Int) ≤ (requests.length : Int) := by
    exact_mod_cast Nat.le_of_lt hk
  have hitems : (NetworkListing.paginateNetworkRequests requests
      (some ⟨some p, some (intDecimal (k : Int)), none⟩)).requests
      = jsSlice requests (k : Int) ((k : Int)
          + NetworkListing.validatePageSize (some p)
              (requests.length : Int)) := by
    simp only [NetworkListing.paginateNetworkRequests, Option.getD_some]
    rw [if_neg (by simp [NetworkListing.hasPagination])]
    dsimp only
    rw [hfilter, hres]
  have hnext : (NetworkListing.paginateNetworkRequests requests
      (some ⟨some p, some (intDecimal (k : Int)), none⟩)).nextPageToken
      = (if (k : Int) + ((jsSlice requests (k : Int) ((k : Int)
              + NetworkListing.validatePageSize (some p)
                  (requests.length : Int))).length : Int)
            < (requests.length : Int)
         then some (intDecimal ((k : Int) + ((jsSlice requests (k : Int)
              ((k : Int) + NetworkListing.validatePageSize (some p)
                  (requests.length : Int))).length : Int)))
         else none) := by
    simp only [NetworkListing.paginateNetworkRequests, Option.getD_some]
    rw [if_neg (by simp [NetworkListing.hasPagination])]
    dsimp only
    rw [hfilter, hres]
  have hwin := jsSlice_as_take_drop requests (k : Int) ((k : Int)
    + NetworkListing.validatePageSize (some p) (requests.length : Int)) h0 hsle
  have hlen := pageLen_bound requests (k : Int)
    (NetworkListing.validatePageSize (some p) (requests.length : Int)) h0 hsle
  have hprogress : (k : Int) < (k : Int) + ((jsSlice requests (k : Int)
      ((k : Int) + NetworkListing.validatePageSize (some p)
          (requests.length : Int))).length : Int) := by
    have h1 := jsSlice_length requests (k : Int) ((k : Int)
      + NetworkListing.validatePageSize (some p) (requests.length : Int))
      h0 hsle
    have h2 := jsClipIndex_nonneg requests.length ((k : Int)
      + NetworkListing.validatePageSize (some p) (requests.length : Int))
      (by omega)
    omega
  refine ⟨?_, hlen, hprogress, hnext⟩
  rw [hitems]
  simpa using hwin

/-- The first paginated listing call (no token, no filter). -/
theorem listing_first (requests : List HTTPRequest) (p : Int) :
    (NetworkListing.paginateNetworkRequests requests
        (some ⟨some p, none, none⟩)).requests
      = (requests.drop 0).take (jsSlice requests 0 ((0 : Int)
          + NetworkListing.validatePageSize (some p)
              (requests.length : Int))).length
    ∧ (0 : Int) + ((jsSlice requests 0 ((0 : Int)
          + NetworkListing.validatePageSize (some p)
              (requests.length : Int))).length : Int)
        ≤ (requests.length : Int)
    ∧ (NetworkListing.paginateNetworkRequests requests
        (some ⟨some p, none, none⟩)).nextPageToken
      = (if (0 : Int) + ((jsSlice requests 0 ((0 : Int)
              + NetworkListing.validatePageSize (some p)
                  (requests.length : Int))).length : Int)
            < (requests.length : Int)
         then some (intDecimal ((0 : Int) + ((jsSlice requests 0 ((0 : Int)
              + NetworkListing.validatePageSize (some p)
                  (requests.length : Int))).length : Int)))
         else none) := by
  have hfilter : NetworkListing.filterNetworkRequests requests none
      = requests := rfl
  have h0 : (0 : Int) ≤ (0 : Int) := le_refl 0
  have hsle : (0 : Int) ≤ (requests.length : Int) := by positivity
  have hitems : (NetworkListing.paginateNetworkRequests requests
      (some ⟨some p, none, none⟩)).requests
      = jsSlice requests 0 ((0 : Int)
          + NetworkListing.validatePageSize (some p)
              (requests.length : Int)) := by
    simp only [NetworkListing.paginateNetworkRequests, Option.getD_some]
    rw [if_neg (by simp [NetworkListing.hasPagination])]
    dsimp only [NetworkListing.resolveStartIndex]
    rw [hfilter]
  have hnext : (NetworkListing.paginateNetworkRequests requests
      (some ⟨some p, none, none⟩)).nextPageToken
      = (if (0 : Int) + ((jsSlice requests 0 ((0 : Int)
              + NetworkListing.validatePageSize (some p)
                  (requests.length : Int))).length : Int)
            < (requests.length : Int)
         then some (intDecimal ((0 : Int) + ((jsSlice requests 0 ((0 : Int)
              + NetworkListing.validatePageSize (some p)
                  (requests.length : Int))).length : Int)))
         else none) := by
    simp only [NetworkListing.paginateNetworkRequests, Option.getD_some]
    rw [if_neg (by simp [NetworkListing.hasPagination])]
    dsimp only [NetworkListing.resolveStartIndex]
    rw [hfilter]
  have hwin := jsSlice_as_take_drop requests 0 ((0 : Int)
    + NetworkListing.validatePageSize (some p) (requests.length : Int)) h0 hsle
  have hlen := pageLen_bound requests 0
    (NetworkListing.validatePageSize (some p) (requests.length : Int)) h0 hsle
  refine ⟨?_, hlen, hnext⟩
  rw [hitems]
  simpa using hwin

/-- Following the listing chain from a valid offset token collects exactly
the tail of the collection from that offset, and terminates. -/
theorem chainListingPages_from (requests : List HTTPRequest) (p : Int)
    (hp : 0 < p) :
    ∀ (fuel k : Nat), k < requests.length → requests.length - k ≤ fuel →
      chainListingPages requests p fuel (some (intDecimal (k : Int)))
        = (requests.drop k, true) := by
  intro fuel
  induction fuel with
  | zero =>
    intro k hk hfuel
    omega
  | succ fuel ih =>
    intro k hk hfuel
    have hstep := listing_step requests p hp k hk
    simp only [chainListingPages]
    rw [hstep.2.2.2]
    by_cases hc : (k : Int) + ((jsSlice requests (k : Int) ((k : Int)
        + NetworkListing.validatePageSize (some p)
            (requests.length : Int))).length : Int)
        < (requests.length : Int)
    · rw [if_pos hc]
      have hcast : (k : Int) + ((jsSlice requests (k : Int) ((k : Int)
          + NetworkListing.validatePageSize (some p)
              (requests.length : Int))).length : Int)
          = ((k + (jsSlice requests (k : Int) ((k : Int)
              + NetworkListing.validatePageSize (some p)
                  (requests.length : Int))).length : Nat) : Int) := by
        push_cast
        ring
      rw [hcast]
      dsimp only
      have hk2 : k + (jsSlice requests (k : Int) ((k : Int)
          + NetworkListing.validatePageSize (some p)
              (requests.length : Int))).length < requests.length := by
        omega
      have hfuel2 : requests.length - (k + (jsSlice requests (k : Int)
          ((k : Int) + NetworkListing.validatePageSize (some p)
              (requests.length : Int))).length) ≤ fuel := by
        have := hstep.2.2.1
        omega
      rw [ih (k + (jsSlice requests (k : Int) ((k : Int)
        + NetworkListing.validatePageSize (some p)
            (requests.length : Int))).length) hk2 hfuel2]
      rw [hstep.1]
      rw [show requests.drop (k + (jsSlice requests (k : Int) ((k : Int)
            + NetworkListing.validatePageSize (some p)
                (requests.length : Int))).length)
            = (requests.drop k).drop (jsSlice requests (k : Int) ((k : Int)
              + NetworkListing.validatePageSize (some p)
                  (requests.length : Int))).length
          from by rw [List.drop_drop]]
      rw [List.take_append_drop]
    · rw [if_neg hc]
      rw [hstep.1]
      rw [List.take_of_length_le (by simp only [List.length_drop]; omega)]

/-- The full listing chain, started with no token, terminates within
`total + 1` calls and concatenates to the whole collection. -/
theorem chainListingPages_complete (requests : List HTTPRequest) (p : Int)
    (hp : 0 < p) :
    chainListingPages requests p (requests.length + 1) none
      = (requests, true) := by
  have hfirst := listing_first requests p
  simp only [chainListingPages]
  rw [hfirst.2.2]
  by_cases hc : (0 : Int) + ((jsSlice requests 0 ((0 : Int)
      + NetworkListing.validatePageSize (some p)
          (requests.length : Int))).length : Int)
      < (requests.length : Int)
  · rw [if_pos hc]
    have hcast : (0 : Int) + ((jsSlice requests 0 ((0 : Int)
        + NetworkListing.validatePageSize (some p)
            (requests.length : Int))).length : Int)
        = (((jsSlice requests 0 ((0 : Int)
            + NetworkListing.validatePageSize (some p)
                (requests.length : Int))).length : Nat) : Int) := by
      ring
    rw [hcast]
    dsimp only
    have hk2 : (jsSlice requests 0 ((0 : Int)
        + NetworkListing.validatePageSize (some p)
            (requests.length : Int))).length < requests.length := by
      omega
    have hfuel2 : requests.length - (jsSlice requests 0 ((0 : Int)
        + NetworkListing.validatePageSize (some p)
            (requests.length : Int))).length ≤ requests.length := by
      omega
    rw [chainListingPages_from requests p hp requests.length
      (jsSlice requests 0 ((0 : Int)
        + NetworkListing.validatePageSize (some p)
            (requests.length : Int))).length hk2 hfuel2]
    rw [hfirst.1, List.drop_zero]
    rw [List.take_append_drop]
  · rw [if_neg hc]
    rw [hfirst.1, List.drop_zero]
    rw [List.take_of_length_le (by omega)]

/-- C8: for any collection and any fixed positive page size, starting with
no token and repeatedly calling again with the returned `nextPageToken`,
the chain terminates (within `total + 1` calls) and the concatenation of
the returned pages is exactly the collection in order — for the generic
`paginate` and for the network-listing `paginateNetworkRequests` alike. -/
theorem c8_token_chaining (T : Type) (items : List T)
    (requests : List HTTPRequest) (p : Int) (hp : 0 < p) :
    chainPages items p (items.length + 1) none = (items, true) ∧
    chainListingPages requests p (requests.length + 1) none
      = (requests, true) :=
  ⟨chainPages_complete items p hp, chainListingPages_complete requests p hp⟩

/-- C8 witness: five numbered items and three requests, page size 2. -/
theorem c8_token_chaining_witness :
    chainPages (List.range 5) 2 ((List.range 5).length + 1) none
      = (List.range 5, true) ∧
    chainListingPages [⟨"a", "xhr"⟩, ⟨"b", "fetch"⟩, ⟨"c", "document"⟩] 2
        (([⟨"a", "xhr"⟩, ⟨"b", "fetch"⟩,
            (⟨"c", "document"⟩ : HTTPRequest)].length) + 1) none
      = ([⟨"a", "xhr"⟩, ⟨"b", "fetch"⟩, ⟨"c", "document"⟩], true) :=
  c8_token_chaining Nat (List.range 5)
    [⟨"a", "xhr"⟩, ⟨"b", "fetch"⟩, ⟨"c", "document"⟩] 2 (by decide)
